import Mathlib

/-!
A verification development for the TSFC compile driver (`tsfc/driver.py`):
the lowering pipeline that turns a symbolic finite-element integral into an
element kernel.  The driver itself (`compile_form`, `compile_integral`,
`build_kernel_body`, `is_mesh_affine`, `make_prefix_ordering`,
`make_index_orderer`) is embedded faithfully below; the collaborator modules
it invokes (`tsfc.fem`, `tsfc.gem` helpers, `tsfc.scheduling`,
`tsfc.impero_utils`, `tsfc.coffee`, `tsfc.kernel_interface`,
`tsfc.quadrature`) are not part of the sources under verification and are
supplied as an explicit record of collaborator functions (`Collab`), modelled
from the specification's interface descriptions.
-/

/-- A quadrature rule value: ordered points and weights
(`tsfc.quadrature.QuadratureRule`).  Numeric entries are modelled as
integers; their values are irrelevant to the driver's control flow. -/
structure QuadratureRuleV where
  points : List (List Int)
  weights : List Int
deriving DecidableEq, Repr

/-- A Python value as stored in a parameters/metadata dictionary:
an integer, a string, a `QuadratureRule`, or some other object
(identified by a tag). -/
inductive PyVal where
  | vint : Int → PyVal
  | vstr : String → PyVal
  | vrule : QuadratureRuleV → PyVal
  | vother : String → PyVal
deriving DecidableEq, Repr

/-- `isinstance(v, QuadratureRule)`. -/
def is_quadrature_rule : PyVal → Bool
  | .vrule _ => true
  | _ => false

/-- Python truthiness for the values above (`if parameters[...]:`). -/
def py_truthy : PyVal → Bool
  | .vint n => n ≠ 0
  | .vstr s => s ≠ ""
  | .vrule _ => true
  | .vother _ => true

/-- A Python dictionary with string keys, modelled as an association list.
Only lookup, deletion and update semantics are relied upon. -/
abbrev Dict := List (String × PyVal)

/-- `d.get(k)` / `d[k]`: the value bound to `k`, if any. -/
def dict_get (d : Dict) (k : String) : Option PyVal :=
  (d.find? (fun kv => kv.1 = k)).map (fun kv => kv.2)

/-- `del d[k]`: remove the binding of `k`. -/
def dict_del (d : Dict) (k : String) : Dict :=
  d.filter (fun kv => kv.1 ≠ k)

/-- `d.update(e)` lookup semantics: keys of `e` override keys of `d`
(association-list lookup takes the first hit, so `e` is put in front). -/
def dict_update (d e : Dict) : Dict := e ++ d

/-- GEM expression nodes (the driver's IR), as used by the driver:
sums, products, index sums, indexed tensors, variables, literals.
Symbolic indices are identified by natural numbers. -/
inductive GEM where
  | Zero : GEM
  | Literal : Int → GEM
  | Variable : String → GEM
  | Sum : GEM → GEM → GEM
  | Product : GEM → GEM → GEM
  | IndexSum : GEM → Nat → GEM
  | Indexed : GEM → List Nat → GEM
deriving DecidableEq, Repr

/-- All nodes of an expression in depth-first pre-order
(`tsfc.node.traversal` restricted to one root; revisits of shared DAG
nodes are skipped in the source, which never changes the first occurrence
of any node, the only thing the driver depends on). -/
def GEM.nodes : GEM → List GEM
  | .Zero => [.Zero]
  | .Literal v => [.Literal v]
  | .Variable n => [.Variable n]
  | .Sum a b => .Sum a b :: (a.nodes ++ b.nodes)
  | .Product a b => .Product a b :: (a.nodes ++ b.nodes)
  | .IndexSum e i => .IndexSum e i :: e.nodes
  | .Indexed b mi => .Indexed b mi :: b.nodes

/-- `tsfc.node.traversal` over a list of root expressions. -/
def traversal (ir : List GEM) : List GEM :=
  ir.flatMap GEM.nodes

/-- The free indices of a GEM expression (a set, modelled as a
duplicate-free list): indices appearing unsummed. -/
def GEM.free_indices : GEM → List Nat
  | .Zero => []
  | .Literal _ => []
  | .Variable _ => []
  | .Sum a b => (a.free_indices ++ b.free_indices).dedup
  | .Product a b => (a.free_indices ++ b.free_indices).dedup
  | .IndexSum e i => e.free_indices.filter (fun j => j ≠ i)
  | .Indexed b mi => (b.free_indices ++ mi).dedup

/-- The multiindex of an `Indexed` node, `[]` for every other node
(driver lines 219-221: `if isinstance(node, gem.Indexed): indices.extend
(node.multiindex)`). -/
def indexed_multiindex : GEM → List Nat
  | .Indexed _ mi => mi
  | _ => []

/-- Driver lines 218-221: collect, in traversal order, every index of
every `Indexed` node's multiindex (with repetitions). -/
def collect_multiindices (ir : List GEM) : List Nat :=
  (traversal ir).flatMap indexed_multiindex

/-- Driver lines 225-226: `numpy.unique(indices, return_index=True)`
gives the distinct values in ascending order together with the position
of the first occurrence of each; sorting those positions and indexing the
original list removes duplicates while preserving first-occurrence order.
`np_unique_sorted` is the ascending list of distinct values. -/
def np_unique_sorted (l : List Nat) : List Nat :=
  List.insertionSort (fun a b => a ≤ b) l.dedup

/-- The `return_index` component of `numpy.unique`: for each distinct
value (in ascending value order), the position of its first occurrence. -/
def np_unique_return_index (l : List Nat) : List Nat :=
  (np_unique_sorted l).map (fun v => List.indexOf v l)

/-- Driver lines 225-226 complete: `numpy.asarray(indices)[numpy.sort
(unique_indices)]`. -/
def unique_preserving_order (l : List Nat) : List Nat :=
  (List.insertionSort (fun a b => a ≤ b) (np_unique_return_index l)).map
    (fun i => l.getD i 0)

/-- Driver `make_prefix_ordering` (lines 262-266): an ordering of
`indices` which starts with the indices of `prefix_ordering`. -/
def make_prefix_ordering (indices : List Nat) (prefix_ordering : List Nat) : List Nat :=
  prefix_ordering ++ indices.filter (fun k => ¬ k ∈ prefix_ordering)

/-- Driver `make_index_orderer` (lines 269-276): sort a set of indices by
their position in `index_ordering` (Python `sorted` is a stable sort, as
is insertion sort). -/
def make_index_orderer (index_ordering : List Nat) (indices : List Nat) : List Nat :=
  List.insertionSort
    (fun a b => List.indexOf a index_ordering ≤ List.indexOf b index_ordering) indices

/-- Driver line 188: the prefix ordering handed to `build_kernel_body`
is `quadrature_indices + argument_indices`, in that order. -/
def kernel_prefix_ordering (quadrature_indices argument_indices : List Nat) : List Nat :=
  quadrature_indices ++ argument_indices

/-- Driver `is_mesh_affine` (lines 255-259) uses this list of cell names. -/
def affine_cells : List String := ["interval", "triangle", "tetrahedron"]

/-- A mesh as consulted by the driver: a cell name and the degree of the
coordinate element. -/
structure Mesh where
  cellname : String
  coordinate_degree : Nat
deriving DecidableEq, Repr

/-- Driver `is_mesh_affine` (lines 255-259). -/
def is_mesh_affine (mesh : Mesh) : Bool :=
  (mesh.cellname ∈ affine_cells) && (mesh.coordinate_degree == 1)

/-- Driver lines 93-99: the representation mode passed to
`prepare_coefficient` for the coordinate buffer. -/
def coords_mode (mesh : Mesh) : Option String :=
  if is_mesh_affine mesh then some "list_tensor" else none

/-- Driver lines 72-75: entries of the caller-supplied parameters
dictionary whose value is the literal `"auto"` are deleted (`del
parameters[...]`, a mutation of the caller's dictionary). -/
def preprocess_degree (parameters : Dict) : Dict :=
  if dict_get parameters "quadrature_degree" = some (.vstr "auto") then
    dict_del parameters "quadrature_degree"
  else parameters

/-- Driver lines 74-75: the second `del`, applied after the first. -/
def preprocess_rule (parameters : Dict) : Dict :=
  if dict_get parameters "quadrature_rule" = some (.vstr "auto") then
    dict_del parameters "quadrature_rule"
  else parameters

/-- Driver lines 72-75 combined. -/
def preprocess_parameters (parameters : Dict) : Dict :=
  preprocess_rule (preprocess_degree parameters)

/-- Driver lines 144-148: per-integral parameters are the integral's
metadata updated (overridden) by the configuration parameters. -/
def merge_params (metadata parameters : Dict) : Dict :=
  dict_update metadata parameters

/-- Driver lines 152-153: `params.get("quadrature_degree",
params["estimated_polynomial_degree"])`.  Python evaluates the default
argument eagerly, so a missing `estimated_polynomial_degree` raises
`KeyError` even when an explicit degree is present. -/
def resolve_quadrature_degree (params : Dict) : Except String PyVal :=
  match dict_get params "estimated_polynomial_degree" with
  | none => .error "KeyError: estimated_polynomial_degree"
  | some est => .ok ((dict_get params "quadrature_degree").getD est)

/-- A COFFEE declaration (`coffee.Decl(typ, Symbol(sym, rank=rank),
qualifiers=qualifiers)`). -/
structure CoffeeDecl where
  typ : String
  sym : String
  rank : List Nat
  qualifiers : List String
deriving DecidableEq, Repr

/-- A COFFEE function declaration (`coffee.FunDecl`); the body is the
block `prepare + [body] + finalise`, with statements kept opaque. -/
structure CoffeeFunDecl where
  ret : String
  name : String
  args : List CoffeeDecl
  body : List String
  pred : List String
deriving DecidableEq, Repr

/-- The kernel record built by the driver
(`tsfc.kernel_interface.Kernel`), with exactly the fields the assembly
layer reads according to the spec. -/
structure Kernel where
  integral_type : String
  subdomain_id : String
  coefficient_numbers : List Nat
  oriented : Bool
  ast : CoffeeFunDecl
deriving DecidableEq, Repr

/-- One integral term of an integral-data group: its integrand and its
metadata dictionary (notably `estimated_polynomial_degree`). -/
structure IntegralTerm where
  integrand : GEM
  metadata : Dict

/-- One integral-data group (`idata`): integral type, subdomain id,
domain, the enabled-coefficients mask and the integral terms. -/
structure IntegralData where
  integral_type : String
  subdomain_id : String
  domain : Mesh
  enabled_coefficients : List Bool
  integrals : List IntegralTerm

/-- The form-data bookkeeping consulted by the driver: the reduced
coefficient list (coefficients modelled by name) and the map from
reduced positions to positions in the original form. -/
structure FormData where
  reduced_coefficients : List String
  original_coefficient_positions : List Nat

/-- The collaborator functions invoked by the driver.  Every field is a
module that is not part of the sources under verification; each is
modelled from the spec's description of its interface and kept fully
abstract (the theorems below hold for every choice of collaborators). -/
structure Collab where
  /-- Modelled from the spec: `tsfc.kernel_interface.prepare_arguments`
  (not under src/) returns the argument-evaluation buffer declaration,
  its marshalling preamble, the return-variable expressions (whose first
  multiindex carries the argument indices), and finalisation statements. -/
  prepare_arguments : String → CoffeeDecl × List String × List GEM × List String
  /-- Modelled from the spec: `tsfc.kernel_interface.prepare_coefficient`
  (not under src/): integral type, coefficient, kernel-side name, and a
  representation mode (`some "list_tensor"` or the default `none`); it
  returns the buffer declaration, its preamble, and the GEM expression
  standing for the coefficient. -/
  prepare_coefficient : String → String → String → Option String → CoffeeDecl × List String × GEM
  /-- Modelled from the spec: `tsfc.fem.coordinate_coefficient` (not under
  src/) builds the coordinate coefficient of a mesh. -/
  coordinate_coefficient : Mesh → String
  /-- Modelled from the spec: the Quadrature Selector
  `tsfc.quadrature.create_quadrature(cell, integral_type, degree)`. -/
  create_quadrature : String → String → PyVal → QuadratureRuleV
  /-- Modelled from the spec: `tsfc.fem.replace_coordinates` (not under
  src/) substitutes the coordinate coefficient into the integrand. -/
  replace_coordinates : GEM → String → GEM
  /-- Modelled from the spec: `gem.Index` allocation for the per-term
  quadrature index `ip‹i›` (driver line 166). -/
  quadrature_index : Nat → Nat
  /-- Modelled from the spec: the Symbolic Lowering Engine
  `tsfc.fem.process` (not under src/): integral type, integrand,
  quadrature rule, quadrature index, argument indices, coefficient map;
  returns the per-restriction IR fragments. -/
  fem_process : String → GEM → QuadratureRuleV → Nat → List Nat → List (String × GEM) → List GEM
  /-- Modelled from the spec: the Optimizer `tsfc.optimise.unroll_indexsum`
  (not under src/). -/
  unroll_indexsum : List GEM → PyVal → List GEM
  /-- Modelled from the spec: the Optimizer
  `tsfc.optimise.remove_componenttensors` (not under src/). -/
  remove_componenttensors : List GEM → List GEM
  /-- Modelled from the spec: the Scheduler
  `tsfc.scheduling.emit_operations` (not under src/); an empty result
  signals that the whole integral was simplified away. -/
  emit_operations : List (GEM × GEM) → (GEM → List Nat) → List String
  /-- Modelled from the spec: the Temporary Eliminator
  `tsfc.impero_utils.inline_temporaries` (not under src/). -/
  inline_temporaries : List GEM → List String → Bool → List String
  /-- Modelled from the spec: `tsfc.impero_utils.process` (not under
  src/), preparing the Impero AST. -/
  impero_process : List String → (GEM → List Nat) → String
  /-- Modelled from the spec: the Kernel Emitter `tsfc.coffee.generate`
  (not under src/). -/
  generate_coffee : String → List (Nat × String) → String

/-- Driver lines 84-89: the argument indices are the `gem.Index` entries
of the first return-variable expression's multiindex (line 85 computes a
sorted variant that line 89 immediately overwrites; only line 89 is
live).  In this model every multiindex entry is a symbolic index. -/
def argument_indices_of (expressions : List GEM) : List Nat :=
  indexed_multiindex (expressions.headD .Zero)

/-- Driver lines 125-132: facet integral types get a facet-index kernel
parameter; one unsigned integer for exterior facets, two for interior
facets, none for any other integral type. -/
def facet_decls (integral_type : String) : List CoffeeDecl :=
  if integral_type = "exterior_facet" ∨ integral_type = "exterior_facet_vert" then
    [⟨"unsigned int", "facet", [1], ["const"]⟩]
  else if integral_type = "interior_facet" ∨ integral_type = "interior_facet_vert" then
    [⟨"unsigned int", "facet", [2], ["const"]⟩]
  else []

/-- Driver lines 193-197: the cell-orientations kernel parameter. -/
def cell_orientations_decl : CoffeeDecl :=
  ⟨"int *restrict *restrict", "cell_orientations", [], ["const"]⟩

/-- Driver lines 105-123: the coefficient loop over
`enumerate(idata.enabled_coefficients)`; disabled entries are skipped,
enabled entries record the coefficient's position in the original form
and add one kernel buffer.  Returns (coefficient_numbers, buffer
declarations, preamble, coefficient map entries). -/
def coefficient_loop (ext : Collab) (integral_type : String)
    (reduced : List String) (origpos : List Nat) :
    List (Nat × Bool) → List Nat × List CoffeeDecl × List String × List (String × GEM)
  | [] => ([], [], [], [])
  | (i, flag) :: rest =>
    let (nums, decls, preps, cmap) := coefficient_loop ext integral_type reduced origpos rest
    if flag then
      let coefficient := reduced.getD i ""
      let pc := ext.prepare_coefficient integral_type coefficient ("w_" ++ toString i) none
      (origpos.getD i 0 :: nums, pc.1 :: decls, pc.2.1 ++ preps, (coefficient, pc.2.2) :: cmap)
    else (nums, decls, preps, cmap)

/-- Driver line 178 (`zip(*nonfem_)`): Python `zip` of several lists
truncates silently to the shortest list. -/
def min_length : List (List GEM) → Nat
  | [] => 0
  | [l] => l.length
  | l :: ls => min l.length (min_length ls)

/-- Python `zip(*ls)` as a list of columns. -/
def zip_star (ls : List (List GEM)) : List (List GEM) :=
  (List.range (min_length ls)).map (fun j => ls.map (fun l => l.getD j GEM.Zero))

/-- Driver lines 177-178: `nonfem = list(reduce(gem.Sum, e, gem.Zero())
for e in zip(*nonfem_))` — sum the expressions that are part of the same
restriction, one column at a time. -/
def sum_restrictions (nonfem_ : List (List GEM)) : List GEM :=
  (zip_star nonfem_).map (fun e => e.foldl GEM.Sum GEM.Zero)

/-- Driver lines 180-185: loop-index naming — `j`/`k` for the argument
indices, `ip` for a single quadrature index, `ip_‹i›` otherwise. -/
def build_index_names (argument_indices quadrature_indices : List Nat) :
    List (Nat × String) :=
  let index_names := argument_indices.zip ["j", "k"]
  if quadrature_indices.length = 1 then
    index_names ++ [(quadrature_indices.headD 0, "ip")]
  else
    index_names ++ (quadrature_indices.enum.map (fun p => (p.2, "ip_" ++ toString p.1)))

/-- The `ValueError` raised at driver lines 158-160. -/
def quad_rule_error : String :=
  "ValueError: Expected to find a QuadratureRule object"

/-- A raised Python exception, paired with the list of integrands that
had already been handed to the Symbolic Lowering Engine when it was
raised (the model's lowering log, recording how far lowering got). -/
abbrev PyErr := String × List GEM

/-- Driver lines 143-175, one iteration per integral term `(i,
integral)`: merge metadata with the configuration parameters, resolve the
quadrature degree and rule, validate the rule (`isinstance`), substitute
coordinates, allocate the per-term quadrature index, lower via
`fem.process`, optionally unroll index sums, and wrap each fragment in an
`IndexSum` over the quadrature index when that index occurs free.  The
accumulator carries (`nonfem_`, `quadrature_indices`, lowering log). -/
def integrals_loop (ext : Collab) (cell integral_type coordinates : String)
    (argument_indices : List Nat) (coefficient_map : List (String × GEM))
    (parameters : Dict) :
    List (Nat × IntegralTerm) →
    List (List GEM) × List Nat × List GEM →
    Except PyErr (List (List GEM) × List Nat × List GEM)
  | [], acc => .ok acc
  | (i, integral) :: rest, (nonfem_, quadrature_indices, lowered) =>
    let params := merge_params integral.metadata parameters
    match resolve_quadrature_degree params with
    | .error e => .error (e, lowered)
    | .ok quadrature_degree =>
      let quad_rule : PyVal :=
        (dict_get params "quadrature_rule").getD
          (.vrule (ext.create_quadrature cell integral_type quadrature_degree))
      match quad_rule with
      | .vrule rule =>
        let integrand := ext.replace_coordinates integral.integrand coordinates
        let quadrature_index := ext.quadrature_index i
        let nonfem := ext.fem_process integral_type integrand rule
          quadrature_index argument_indices coefficient_map
        match dict_get parameters "unroll_indexsum" with
        | none => .error ("KeyError: unroll_indexsum", lowered ++ [integrand])
        | some unroll =>
          let nonfem :=
            if py_truthy unroll then ext.unroll_indexsum nonfem unroll else nonfem
          let wrapped := nonfem.map (fun e =>
            if quadrature_index ∈ e.free_indices then GEM.IndexSum e quadrature_index else e)
          integrals_loop ext cell integral_type coordinates argument_indices
            coefficient_map parameters rest
            (nonfem_ ++ [wrapped], quadrature_indices ++ [quadrature_index],
             lowered ++ [integrand])
      | _ => .error (quad_rule_error, lowered)

/-- Driver `build_kernel_body` (lines 207-252): simplify, detect
cell-orientation references, collect the indices in deterministic
first-occurrence order, fix the index ordering from the prefix ordering,
schedule the operations (an empty operation list means the integral was
simplified away and yields no body), inline temporaries and emit. -/
def build_kernel_body (ext : Collab) (return_variables ir : List GEM)
    (prefix_ordering : List Nat) (coffee_licm : Bool)
    (index_names : List (Nat × String)) : Option String × Bool :=
  let ir := ext.remove_componenttensors ir
  let oriented := (traversal ir).any (fun node => node = GEM.Variable "cell_orientations")
  let indices := unique_preserving_order (collect_multiindices ir)
  let index_ordering := make_prefix_ordering indices prefix_ordering
  let get_indices : GEM → List Nat :=
    fun expr => make_index_orderer index_ordering expr.free_indices
  let ops := ext.emit_operations (return_variables.zip ir) get_indices
  if ops.length = 0 then (none, false)
  else
    let ops := ext.inline_temporaries ir ops coffee_licm
    let impero_c := ext.impero_process ops get_indices
    let body := ext.generate_coffee impero_c index_names
    (some body, oriented)

/-- Driver `compile_integral` (lines 62-204).  The result carries the
kernel (or `none` when the integral simplifies to zero) together with
the parameters dictionary as the caller observes it after the call
(lines 72-75 mutate it). -/
def compile_integral (ext : Collab) (idata : IntegralData) (fd : FormData)
    (pre : String) (parameters : Dict) :
    Except PyErr (Option Kernel × Dict) :=
  let parameters := preprocess_parameters parameters
  let integral_type := idata.integral_type
  let pa := ext.prepare_arguments integral_type
  let arg_funarg := pa.1
  let arg_prepare := pa.2.1
  let expressions := pa.2.2.1
  let finalise := pa.2.2.2
  let argument_indices := argument_indices_of expressions
  let mesh := idata.domain
  let coordinates := ext.coordinate_coefficient mesh
  let pc := ext.prepare_coefficient integral_type coordinates "coords" (coords_mode mesh)
  let coord_funarg := pc.1
  let coord_prepare := pc.2.1
  let cl := coefficient_loop ext integral_type fd.reduced_coefficients
    fd.original_coefficient_positions idata.enabled_coefficients.enum
  let coefficient_numbers := cl.1
  let coeff_decls := cl.2.1
  let coeff_prepare := cl.2.2.1
  let coefficient_map := (coordinates, pc.2.2) :: cl.2.2.2
  let cell := mesh.cellname
  match integrals_loop ext cell integral_type coordinates argument_indices
      coefficient_map parameters idata.integrals.enum ([], [], []) with
  | .error e => .error e
  | .ok (nonfem_, quadrature_indices, _lowered) =>
    let nonfem := sum_restrictions nonfem_
    let index_names := build_index_names argument_indices quadrature_indices
    match dict_get parameters "coffee_licm" with
    | none => .error ("KeyError: coffee_licm", _lowered)
    | some licm =>
      match build_kernel_body ext expressions nonfem
          (kernel_prefix_ordering quadrature_indices argument_indices)
          (py_truthy licm) index_names with
      | (none, _) => .ok (none, parameters)
      | (some body, oriented) =>
        let arglist := [arg_funarg, coord_funarg] ++ coeff_decls ++ facet_decls integral_type
        let arglist :=
          if oriented then arglist.insertIdx 2 cell_orientations_decl else arglist
        let funname := pre ++ "_" ++ integral_type ++ "_integral_" ++ idata.subdomain_id
        .ok (some {
          integral_type := integral_type
          subdomain_id := idata.subdomain_id
          coefficient_numbers := coefficient_numbers
          oriented := oriented
          ast := {
            ret := "void"
            name := funname
            args := arglist
            body := (arg_prepare ++ coord_prepare ++ coeff_prepare) ++ [body] ++ finalise
            pred := ["static", "inline"] } }, parameters)

/-- Modelled from the spec: `tsfc.constants.default_parameters` (not
under src/), providing defaults for the four configuration parameters
(`quadrature_degree`/`quadrature_rule` default to `"auto"`,
`unroll_indexsum` to a small threshold, `coffee_licm` to off). -/
def default_parameters : Dict :=
  [("quadrature_degree", .vstr "auto"), ("quadrature_rule", .vstr "auto"),
   ("unroll_indexsum", .vint 3), ("coffee_licm", .vint 0)]

/-- Driver lines 50-56: compile each integral-data group in turn; a
`None` kernel is dropped without error; the (possibly mutated)
parameters dictionary is the one seen by subsequent iterations. -/
def compile_form_loop (ext : Collab) (fd : FormData) (pre : String) :
    Dict → List IntegralData → Except PyErr (List Kernel)
  | _, [] => .ok []
  | parameters, idata :: rest =>
    match compile_integral ext idata fd pre parameters with
    | .error e => .error e
    | .ok (kernel?, parameters') =>
      match compile_form_loop ext fd pre parameters' rest with
      | .error e => .error e
      | .ok kernels =>
        match kernel? with
        | some kernel => .ok (kernel :: kernels)
        | none => .ok kernels

/-- Driver `compile_form` (lines 23-59): merge the caller's parameters
over the defaults (`compute_form_data` itself is an external UFL
collaborator; the integral-data groups it produces are taken as input)
and compile every group. -/
def compile_form (ext : Collab) (fd : FormData) (idatas : List IntegralData)
    (pre : String) (parameters : Option Dict) : Except PyErr (List Kernel) :=
  let parameters :=
    match parameters with
    | none => default_parameters
    | some p => dict_update default_parameters p
  compile_form_loop ext fd pre parameters idatas

/-- A concrete collaborator record for the closed evaluations below:
every field is a small constant function of the right shape (two
argument indices 10 and 11, quadrature index `20 + i` for term `i`). -/
def collab0 : Collab where
  prepare_arguments := fun _ =>
    (⟨"double", "A", [3, 3], []⟩, ["prepare_A"],
     [GEM.Indexed (GEM.Variable "A") [10, 11]], ["finalise_A"])
  prepare_coefficient := fun _ _ n _ =>
    (⟨"double", n, [3], ["const"]⟩, ["prepare_" ++ n], GEM.Variable n)
  coordinate_coefficient := fun _ => "coordinate_coefficient"
  create_quadrature := fun _ _ _ => ⟨[[0, 0]], [1]⟩
  replace_coordinates := fun e _ => e
  quadrature_index := fun i => 20 + i
  fem_process := fun _ _ _ qi _ _ => [GEM.Indexed (GEM.Variable "T") [qi, 10, 11]]
  unroll_indexsum := fun es _ => es
  remove_componenttensors := fun es => es
  emit_operations := fun pairs _ => pairs.map (fun _ => "op")
  inline_temporaries := fun _ ops _ => ops
  impero_process := fun _ _ => "impero"
  generate_coffee := fun _ _ => "body"

/-- `collab0` with a scheduler that emits the empty operation list: the
shape of a collaborator set under which every integral simplifies to
zero. -/
def collab_zero : Collab :=
  { collab0 with emit_operations := fun _ _ => [] }

/-- A concrete affine mesh. -/
def mesh0 : Mesh := ⟨"triangle", 1⟩

/-- A concrete integral term carrying an estimated polynomial degree. -/
def term0 : IntegralTerm :=
  ⟨GEM.Variable "u", [("estimated_polynomial_degree", .vint 2)]⟩

/-- A concrete cell integral-data group with two enabled coefficients
out of three. -/
def idata_cell : IntegralData :=
  ⟨"cell", "otherwise", mesh0, [true, false, true], [term0]⟩

/-- A concrete interior-facet integral-data group. -/
def idata_interior : IntegralData :=
  ⟨"interior_facet", "otherwise", mesh0, [true, false, true], [term0]⟩

/-- Concrete form data: three reduced coefficients at original positions
0, 2, 5. -/
def fd0 : FormData := ⟨["f", "g", "h"], [0, 2, 5]⟩

/-- A concrete parameters dictionary with no `"auto"` entries. -/
def params0 : Dict := [("unroll_indexsum", .vint 0), ("coffee_licm", .vint 0)]

theorem dict_get_update (d e : Dict) (k : String) :
    dict_get (dict_update d e) k = (dict_get e k).or (dict_get d k) := by
  unfold dict_get dict_update
  rw [List.find?_append]
  cases List.find? (fun kv => kv.1 = k) e <;> simp

theorem dict_get_cons (a : String) (v : PyVal) (d : Dict) (k : String) :
    dict_get ((a, v) :: d) k = if a = k then some v else dict_get d k := by
  unfold dict_get
  by_cases h : a = k <;> simp [List.find?_cons, h]

theorem dict_del_cons (a : String) (v : PyVal) (d : Dict) (k : String) :
    dict_del ((a, v) :: d) k
      = if a = k then dict_del d k else (a, v) :: dict_del d k := by
  unfold dict_del
  by_cases h : a = k <;> simp [List.filter_cons, h]

theorem dict_get_del_self (d : Dict) (k : String) :
    dict_get (dict_del d k) k = none := by
  induction d with
  | nil => rfl
  | cons kv d ih =>
    obtain ⟨a, v⟩ := kv
    rw [dict_del_cons]
    by_cases h1 : a = k
    · simpa [h1] using ih
    · rw [if_neg h1, dict_get_cons, if_neg h1]
      exact ih

theorem dict_get_del_ne (d : Dict) (k k' : String) (h : k ≠ k') :
    dict_get (dict_del d k') k = dict_get d k := by
  induction d with
  | nil => rfl
  | cons kv d ih =>
    obtain ⟨a, v⟩ := kv
    rw [dict_del_cons, dict_get_cons]
    by_cases h1 : a = k'
    · have h2 : a ≠ k := fun hk => h (hk.symm.trans h1)
      rw [if_pos h1, if_neg h2]
      exact ih
    · rw [if_neg h1, dict_get_cons]
      by_cases h2 : a = k
      · rw [if_pos h2, if_pos h2]
      · rw [if_neg h2, if_neg h2]
        exact ih

theorem dict_get_preprocess_other (p : Dict) (k : String)
    (h1 : k ≠ "quadrature_degree") (h2 : k ≠ "quadrature_rule") :
    dict_get (preprocess_parameters p) k = dict_get p k := by
  unfold preprocess_parameters preprocess_rule preprocess_degree
  by_cases hd : dict_get p "quadrature_degree" = some (.vstr "auto")
  · rw [if_pos hd,
      dict_get_del_ne p "quadrature_rule" "quadrature_degree" (by decide)]
    by_cases hr : dict_get p "quadrature_rule" = some (.vstr "auto")
    · rw [if_pos hr, dict_get_del_ne _ _ _ h2, dict_get_del_ne _ _ _ h1]
    · rw [if_neg hr, dict_get_del_ne _ _ _ h1]
  · rw [if_neg hd]
    by_cases hr : dict_get p "quadrature_rule" = some (.vstr "auto")
    · rw [if_pos hr, dict_get_del_ne _ _ _ h2]
    · rw [if_neg hr]

theorem dict_get_preprocess_degree (p : Dict) :
    dict_get (preprocess_parameters p) "quadrature_degree"
      = if dict_get p "quadrature_degree" = some (.vstr "auto") then none
        else dict_get p "quadrature_degree" := by
  unfold preprocess_parameters preprocess_rule preprocess_degree
  by_cases hd : dict_get p "quadrature_degree" = some (.vstr "auto")
  · rw [if_pos hd, if_pos hd,
      dict_get_del_ne p "quadrature_rule" "quadrature_degree" (by decide)]
    by_cases hr : dict_get p "quadrature_rule" = some (.vstr "auto")
    · rw [if_pos hr,
        dict_get_del_ne _ "quadrature_degree" "quadrature_rule" (by decide),
        dict_get_del_self]
    · rw [if_neg hr, dict_get_del_self]
  · rw [if_neg hd, if_neg hd]
    by_cases hr : dict_get p "quadrature_rule" = some (.vstr "auto")
    · rw [if_pos hr,
        dict_get_del_ne p "quadrature_degree" "quadrature_rule" (by decide)]
    · rw [if_neg hr]

theorem dict_get_preprocess_rule (p : Dict) :
    dict_get (preprocess_parameters p) "quadrature_rule"
      = if dict_get p "quadrature_rule" = some (.vstr "auto") then none
        else dict_get p "quadrature_rule" := by
  unfold preprocess_parameters preprocess_rule preprocess_degree
  by_cases hd : dict_get p "quadrature_degree" = some (.vstr "auto")
  · rw [if_pos hd,
      dict_get_del_ne p "quadrature_rule" "quadrature_degree" (by decide)]
    by_cases hr : dict_get p "quadrature_rule" = some (.vstr "auto")
    · rw [if_pos hr, if_pos hr, dict_get_del_self]
    · rw [if_neg hr, if_neg hr,
        dict_get_del_ne p "quadrature_rule" "quadrature_degree" (by decide)]
  · rw [if_neg hd]
    by_cases hr : dict_get p "quadrature_rule" = some (.vstr "auto")
    · rw [if_pos hr, if_pos hr, dict_get_del_self]
    · rw [if_neg hr, if_neg hr]

theorem preprocess_parameters_of_no_auto (p : Dict)
    (h1 : dict_get p "quadrature_degree" ≠ some (.vstr "auto"))
    (h2 : dict_get p "quadrature_rule" ≠ some (.vstr "auto")) :
    preprocess_parameters p = p := by
  unfold preprocess_parameters preprocess_rule preprocess_degree
  rw [if_neg h1, if_neg h2]

/-- C1 (counterexample): with argument indices 10 and 11 and quadrature
index 20 (all collected, in the order they occur in the IR), the index
ordering the driver fixes for loop nesting is quadrature index FIRST —
`[20, 10, 11]` — not the claimed argument-indices-first `[10, 11, 20]`:
driver line 188 passes `quadrature_indices + argument_indices` as the
prefix ordering. -/
theorem prefix_ordering_puts_quadrature_first_counterexample :
    make_prefix_ordering [20, 10, 11] (kernel_prefix_ordering [20] [10, 11])
      = [20, 10, 11]
    ∧ [20, 10, 11] ≠ [10, 11, 20] := by
  constructor
  · rfl
  · decide

/-- C1 (amended): for every integral the deterministic index ordering
used to fix the emitted loop nesting places the quadrature
index/indices first, then the argument indices, then any remaining
collected free indices in first-occurrence order; in particular every
quadrature index is nested outside every argument index. -/
theorem prefix_ordering_quadrature_then_arguments (qs args idx : List Nat)
    (hdisj : ∀ a ∈ args, a ∉ qs) :
    make_prefix_ordering idx (kernel_prefix_ordering qs args)
      = qs ++ args ++ idx.filter (fun k => ¬ k ∈ qs ++ args)
    ∧ ∀ q ∈ qs, ∀ a ∈ args,
        List.indexOf q (make_prefix_ordering idx (kernel_prefix_ordering qs args))
          < List.indexOf a (make_prefix_ordering idx (kernel_prefix_ordering qs args)) := by
  have hord : make_prefix_ordering idx (kernel_prefix_ordering qs args)
      = qs ++ (args ++ idx.filter (fun k => ¬ k ∈ qs ++ args)) := by
    unfold make_prefix_ordering kernel_prefix_ordering
    rw [List.append_assoc]
  refine ⟨by rw [hord, List.append_assoc], ?_⟩
  intro q hq a ha
  rw [hord]
  have hqlt : List.indexOf q (qs ++ (args ++ idx.filter (fun k => ¬ k ∈ qs ++ args)))
      < qs.length := by
    rw [List.indexOf_append_of_mem hq]
    exact List.indexOf_lt_length.mpr hq
  have hage : List.indexOf a (qs ++ (args ++ idx.filter (fun k => ¬ k ∈ qs ++ args)))
      = qs.length + List.indexOf a (args ++ idx.filter (fun k => ¬ k ∈ qs ++ args)) :=
    List.indexOf_append_of_not_mem (hdisj a ha)
  omega

/-- C1 (witness for the amended theorem): instantiated at the
mass-matrix shape — two argument indices, one quadrature index. -/
theorem prefix_ordering_quadrature_then_arguments_witness :
    make_prefix_ordering [20, 10, 11] (kernel_prefix_ordering [20] [10, 11])
        = [20] ++ [10, 11] ++ [20, 10, 11].filter (fun k => ¬ k ∈ [20] ++ [10, 11])
    ∧ ∀ q ∈ [20], ∀ a ∈ [10, 11],
        List.indexOf q (make_prefix_ordering [20, 10, 11] (kernel_prefix_ordering [20] [10, 11]))
          < List.indexOf a (make_prefix_ordering [20, 10, 11] (kernel_prefix_ordering [20] [10, 11])) :=
  prefix_ordering_quadrature_then_arguments [20] [10, 11] [20, 10, 11] (by decide)

/-- C2: two integral terms whose per-restriction fragment lists have
mismatched lengths are not rejected: driver line 178's `zip(*nonfem_)`
silently truncates to the shorter list, so the fragment lists `[a]` and
`[b, c]` produce the single summed fragment `Zero + a + b`, dropping `c`
— a kernel is produced, no error is raised. -/
theorem mismatched_fragment_lists_silently_truncated :
    sum_restrictions [[GEM.Variable "a"], [GEM.Variable "b", GEM.Variable "c"]]
      = [GEM.Sum (GEM.Sum GEM.Zero (GEM.Variable "a")) (GEM.Variable "b")]
    ∧ (sum_restrictions [[GEM.Variable "a"], [GEM.Variable "b", GEM.Variable "c"]]).length
        = 1 := by
  constructor
  · rfl
  · rfl

/-- The parameters dictionary of the C10 counterexample: its
`quadrature_degree` entry holds the literal `"auto"`. -/
def params_auto : Dict :=
  [("quadrature_degree", .vstr "auto"), ("unroll_indexsum", .vint 0),
   ("coffee_licm", .vint 0)]

/-- The parameters dictionary as the caller observes it after
`compile_integral` returns. -/
def returned_parameters (r : Except PyErr (Option Kernel × Dict))
    (fallback : Dict) : Dict :=
  match r with
  | .ok (_, d) => d
  | .error _ => fallback

/-- C10 (counterexample): `compile_integral` is not free of effects on
its caller-supplied parameters dictionary: called with a dictionary
whose `quadrature_degree` is `"auto"`, it deletes that entry (driver
lines 72-73), so the dictionary the caller observes afterwards differs
from the one passed in. -/
theorem compile_integral_mutates_parameters_dict :
    returned_parameters
        (compile_integral collab0 idata_cell fd0 "form" params_auto) params_auto
      ≠ params_auto := by
  decide

/-- Modelled from the spec: the two coordinate-buffer representations
produced by `tsfc.kernel_interface.prepare_coefficient` (not under
src/): the cheaper `list_tensor` mode copies the buffer entries into an
explicit list-tensor literal, the general mode reads the named buffer
directly. -/
inductive CoordRep where
  | list_tensor : List Int → CoordRep
  | general : String → CoordRep
deriving DecidableEq, Repr

/-- Modelled from the spec: the denotation of a coordinate-buffer
representation — reading component `c` given the caller's buffers. -/
def read_coord (buffers : String → List Int) (rep : CoordRep) (c : Nat) : Int :=
  match rep with
  | .list_tensor entries => entries.getD c 0
  | .general name => (buffers name).getD c 0

/-- Driver lines 93-99 over the spec-modelled representations: affine
meshes get the list-tensor representation of the coordinate buffer,
all others the general representation of the same buffer. -/
def coordinate_representation (mesh : Mesh) (buffers : String → List Int) : CoordRep :=
  if is_mesh_affine mesh then .list_tensor (buffers "coords") else .general "coords"

/-- C9: the coordinate-buffer representation chosen by the driver is the
list-tensor one exactly when the mesh is affine (an interval, triangle
or tetrahedron cell with coordinate degree 1) — equivalently, exactly
when `compile_integral` passes mode `"list_tensor"` to
`prepare_coefficient` — and the choice is semantically transparent:
whichever representation is chosen reads the same value as the general
representation at every component, so both choices yield kernels
computing the same result. -/
theorem coordinate_representation_equivalent (mesh : Mesh)
    (buffers : String → List Int) (c : Nat) :
    read_coord buffers (coordinate_representation mesh buffers) c
      = read_coord buffers (.general "coords") c
    ∧ (coords_mode mesh = some "list_tensor"
        ↔ (mesh.cellname ∈ affine_cells ∧ mesh.coordinate_degree = 1))
    ∧ ((∃ entries, coordinate_representation mesh buffers = .list_tensor entries)
        ↔ coords_mode mesh = some "list_tensor") := by
  refine ⟨?_, ?_, ?_⟩
  · unfold coordinate_representation read_coord
    by_cases h : is_mesh_affine mesh <;> simp [h]
  · unfold coords_mode is_mesh_affine
    by_cases h1 : mesh.cellname ∈ affine_cells <;>
      by_cases h2 : mesh.coordinate_degree = 1 <;> simp [h1, h2]
  · unfold coordinate_representation coords_mode
    by_cases h : is_mesh_affine mesh <;> simp [h]

theorem mem_np_unique_sorted {l : List Nat} {v : Nat} :
    v ∈ np_unique_sorted l ↔ v ∈ l := by
  unfold np_unique_sorted
  rw [List.mem_insertionSort, List.mem_dedup]

theorem nodup_np_unique_sorted (l : List Nat) : (np_unique_sorted l).Nodup :=
  (List.perm_insertionSort _ _).nodup_iff.mpr (List.nodup_dedup l)

theorem np_position_spec (l : List Nat) (j : Nat)
    (hj : j ∈ List.insertionSort (fun a b => a ≤ b) (np_unique_return_index l)) :
    l.getD j 0 ∈ l ∧ List.indexOf (l.getD j 0) l = j := by
  rw [(List.perm_insertionSort _ _).mem_iff] at hj
  unfold np_unique_return_index at hj
  rw [List.mem_map] at hj
  obtain ⟨v, hv, rfl⟩ := hj
  have hvl : v ∈ l := mem_np_unique_sorted.mp hv
  have hlen : List.indexOf v l < l.length := List.indexOf_lt_length.mpr hvl
  have hget : l.getD (List.indexOf v l) 0 = v := by
    rw [List.getD_eq_getElem l 0 hlen]
    exact List.getElem_indexOf hlen
  rw [hget]
  exact ⟨hvl, rfl⟩

theorem nodup_np_unique_return_index (l : List Nat) :
    (np_unique_return_index l).Nodup := by
  unfold np_unique_return_index
  refine List.Nodup.map_on ?_ (nodup_np_unique_sorted l)
  intro x hx y hy hf
  have hxl : x ∈ l := mem_np_unique_sorted.mp hx
  have hyl : y ∈ l := mem_np_unique_sorted.mp hy
  have hxlen : List.indexOf x l < l.length := List.indexOf_lt_length.mpr hxl
  have hylen : List.indexOf y l < l.length := List.indexOf_lt_length.mpr hyl
  have hx' : l[List.indexOf x l] = x := List.getElem_indexOf hxlen
  have hy' : l[List.indexOf y l] = y := List.getElem_indexOf hylen
  rw [← hx', ← hy']
  congr 1

/-- C4: the embedded compilation pipeline is a pure function, so two
independent compilations of the same symbolic input with the same
parameters are syntactically identical; and the index-collection step
of `build_kernel_body` (the `numpy.unique`-based dedup of driver lines
225-226) removes duplicates keeping each index exactly once, keeps
exactly the collected indices, and lists them in strictly increasing
order of first occurrence — so the emitted loop ordering is stable. -/
theorem compile_integral_deterministic :
    (∀ ext idata fd pre parameters,
        compile_integral ext idata fd pre parameters
          = compile_integral ext idata fd pre parameters)
    ∧ ∀ l : List Nat,
        (unique_preserving_order l).Nodup
        ∧ (∀ a, a ∈ unique_preserving_order l ↔ a ∈ l)
        ∧ (unique_preserving_order l).Pairwise
            (fun a b => List.indexOf a l < List.indexOf b l) := by
  refine ⟨fun _ _ _ _ _ => rfl, fun l => ?_⟩
  have hsortle : List.Sorted (fun a b : Nat => a ≤ b)
      (List.insertionSort (fun a b => a ≤ b) (np_unique_return_index l)) :=
    List.sorted_insertionSort _ _
  have hnodupP : (List.insertionSort (fun a b => a ≤ b)
      (np_unique_return_index l)).Nodup :=
    (List.perm_insertionSort _ _).nodup_iff.mpr (nodup_np_unique_return_index l)
  have hsortlt : List.Sorted (fun a b : Nat => a < b)
      (List.insertionSort (fun a b => a ≤ b) (np_unique_return_index l)) :=
    hsortle.lt_of_le hnodupP
  refine ⟨?_, ?_, ?_⟩
  · unfold unique_preserving_order
    refine List.Nodup.map_on ?_ hnodupP
    intro x hx y hy hf
    have hx' := np_position_spec l x hx
    have hy' := np_position_spec l y hy
    rw [← hx'.2, ← hy'.2]
    congr 1
  · intro a
    unfold unique_preserving_order
    constructor
    · intro ha
      rw [List.mem_map] at ha
      obtain ⟨j, hj, rfl⟩ := ha
      exact (np_position_spec l j hj).1
    · intro ha
      rw [List.mem_map]
      refine ⟨List.indexOf a l, ?_, ?_⟩
      · rw [(List.perm_insertionSort _ _).mem_iff]
        unfold np_unique_return_index
        exact List.mem_map_of_mem _ (mem_np_unique_sorted.mpr ha)
      · have hlen : List.indexOf a l < l.length := List.indexOf_lt_length.mpr ha
        rw [List.getD_eq_getElem l 0 hlen]
        exact List.getElem_indexOf hlen
  · unfold unique_preserving_order
    rw [List.pairwise_map]
    refine List.Pairwise.imp_of_mem ?_ hsortlt
    intro i j hi hj hij
    rw [(np_position_spec l i hi).2, (np_position_spec l j hj).2]
    exact hij

theorem coefficient_loop_numbers (ext : Collab) (it : String)
    (reduced : List String) (origpos : List Nat) (l : List (Nat × Bool)) :
    (coefficient_loop ext it reduced origpos l).1
      = l.filterMap (fun p => if p.2 then some (origpos.getD p.1 0) else none) := by
  induction l with
  | nil => rfl
  | cons p rest ih =>
    obtain ⟨i, flag⟩ := p
    cases flag <;> simp [coefficient_loop, List.filterMap_cons, ih]

theorem coefficient_loop_decls_length (ext : Collab) (it : String)
    (reduced : List String) (origpos : List Nat) (l : List (Nat × Bool)) :
    (coefficient_loop ext it reduced origpos l).2.1.length
      = (l.filter (fun p => p.2)).length := by
  induction l with
  | nil => rfl
  | cons p rest ih =>
    obtain ⟨i, flag⟩ := p
    cases flag <;> simp [coefficient_loop, List.filter_cons, ih]

theorem coefficient_loop_decls_from_prepare (ext : Collab) (it : String)
    (reduced : List String) (origpos : List Nat) (l : List (Nat × Bool)) :
    ∀ dl ∈ (coefficient_loop ext it reduced origpos l).2.1, ∃ i,
      dl = (ext.prepare_coefficient it (reduced.getD i "") ("w_" ++ toString i) none).1 := by
  induction l with
  | nil => intro dl hdl; exact absurd hdl (List.not_mem_nil dl)
  | cons p rest ih =>
    obtain ⟨i, flag⟩ := p
    cases flag with
    | false =>
      intro dl hdl
      exact ih dl (by simpa [coefficient_loop] using hdl)
    | true =>
      intro dl hdl
      rw [show (coefficient_loop ext it reduced origpos ((i, true) :: rest)).2.1
          = (ext.prepare_coefficient it (reduced.getD i "") ("w_" ++ toString i) none).1
            :: (coefficient_loop ext it reduced origpos rest).2.1 from rfl] at hdl
      rcases List.mem_cons.mp hdl with h | h
      · exact ⟨i, h⟩
      · exact ih dl h

theorem enumFrom_filter_snd_length (n : Nat) (l : List Bool) :
    ((List.enumFrom n l).filter (fun p => p.2)).length = l.count true := by
  induction l generalizing n with
  | nil => rfl
  | cons b rest ih =>
    cases b <;>
      simp [List.enumFrom_cons, List.filter_cons, List.count_cons, ih]

/-- Inversion of a successful `compile_integral` run that produced a
kernel: the returned parameters dictionary is the preprocessed one, and
the kernel's `coefficient_numbers` and parameter list are exactly the
ones assembled from the coefficient loop, the facet declarations and the
optional cell-orientations declaration. -/
theorem compile_integral_ok_some (ext : Collab) (idata : IntegralData)
    (fd : FormData) (pre : String) (parameters : Dict) (k : Kernel) (d : Dict)
    (h : compile_integral ext idata fd pre parameters = .ok (some k, d)) :
    d = preprocess_parameters parameters
    ∧ k.coefficient_numbers = (coefficient_loop ext idata.integral_type
        fd.reduced_coefficients fd.original_coefficient_positions
        idata.enabled_coefficients.enum).1
    ∧ k.ast.args = (if k.oriented then
        ([(ext.prepare_arguments idata.integral_type).1,
          (ext.prepare_coefficient idata.integral_type
            (ext.coordinate_coefficient idata.domain) "coords"
            (coords_mode idata.domain)).1]
          ++ (coefficient_loop ext idata.integral_type fd.reduced_coefficients
              fd.original_coefficient_positions idata.enabled_coefficients.enum).2.1
          ++ facet_decls idata.integral_type).insertIdx 2 cell_orientations_decl
      else
        [(ext.prepare_arguments idata.integral_type).1,
         (ext.prepare_coefficient idata.integral_type
           (ext.coordinate_coefficient idata.domain) "coords"
           (coords_mode idata.domain)).1]
          ++ (coefficient_loop ext idata.integral_type fd.reduced_coefficients
              fd.original_coefficient_positions idata.enabled_coefficients.enum).2.1
          ++ facet_decls idata.integral_type) := by
  simp only [compile_integral] at h
  split at h
  · exact absurd h (by simp)
  · split at h
    · exact absurd h (by simp)
    · split at h
      · simp at h
      · rw [Except.ok.injEq, Prod.mk.injEq, Option.some.injEq] at h
        obtain ⟨hk, hd⟩ := h
        subst hk
        subst hd
        refine ⟨rfl, rfl, ?_⟩
        split <;> rfl

theorem w_name_ne_facet (i : Nat) : ("w_" ++ toString i) ≠ "facet" := by
  intro h
  have h2 : ("w_" ++ toString i).data = "facet".data := congrArg String.data h
  rw [String.data_append] at h2
  simp at h2

theorem filter_facet_decls (it : String) :
    (facet_decls it).filter (fun dl => dl.sym == "facet") = facet_decls it := by
  unfold facet_decls
  split
  · rfl
  split
  · rfl
  · rfl

theorem compile_integral_ok_params (ext : Collab) (idata : IntegralData)
    (fd : FormData) (pre : String) (parameters : Dict) (k? : Option Kernel) (d : Dict)
    (h : compile_integral ext idata fd pre parameters = .ok (k?, d)) :
    d = preprocess_parameters parameters := by
  simp only [compile_integral] at h
  split at h
  · exact absurd h (by simp)
  · split at h
    · exact absurd h (by simp)
    · split at h
      · rw [Except.ok.injEq, Prod.mk.injEq] at h
        exact h.2.symm
      · rw [Except.ok.injEq, Prod.mk.injEq] at h
        exact h.2.symm

/-- C7: in every kernel produced by `compile_integral`, exterior-facet
integral types carry exactly one facet parameter of one unsigned
integer, interior-facet types exactly one facet parameter of two
unsigned integers, and cell integrals none (provided the collaborator
marshalling routines never name a buffer `facet`, which the driver
reserves). -/
theorem facet_parameter_shape (ext : Collab) (idata : IntegralData)
    (fd : FormData) (pre : String) (parameters : Dict) (k : Kernel) (d : Dict)
    (h : compile_integral ext idata fd pre parameters = .ok (some k, d))
    (hargs : ∀ it, (ext.prepare_arguments it).1.sym ≠ "facet")
    (hcoef : ∀ it c n m, n ≠ "facet" → (ext.prepare_coefficient it c n m).1.sym ≠ "facet") :
    k.ast.args.filter (fun dl => dl.sym == "facet") = facet_decls idata.integral_type
    ∧ ((idata.integral_type = "exterior_facet"
          ∨ idata.integral_type = "exterior_facet_vert") →
        facet_decls idata.integral_type
          = [⟨"unsigned int", "facet", [1], ["const"]⟩])
    ∧ ((idata.integral_type = "interior_facet"
          ∨ idata.integral_type = "interior_facet_vert") →
        facet_decls idata.integral_type
          = [⟨"unsigned int", "facet", [2], ["const"]⟩])
    ∧ (idata.integral_type = "cell" → facet_decls idata.integral_type = []) := by
  obtain ⟨-, -, hka⟩ := compile_integral_ok_some ext idata fd pre parameters k d h
  have fA : (((ext.prepare_arguments idata.integral_type).1.sym == "facet") = false) :=
    beq_eq_false_iff_ne.mpr (hargs idata.integral_type)
  have fC : (((ext.prepare_coefficient idata.integral_type
      (ext.coordinate_coefficient idata.domain) "coords"
      (coords_mode idata.domain)).1.sym == "facet") = false) :=
    beq_eq_false_iff_ne.mpr (hcoef _ _ _ _ (by decide))
  have fO : ((cell_orientations_decl.sym == "facet") = false) := by decide
  have fW : (coefficient_loop ext idata.integral_type fd.reduced_coefficients
      fd.original_coefficient_positions idata.enabled_coefficients.enum).2.1.filter
        (fun dl => dl.sym == "facet") = [] := by
    rw [List.filter_eq_nil_iff]
    intro dl hdl
    obtain ⟨i, rfl⟩ := coefficient_loop_decls_from_prepare ext idata.integral_type
      fd.reduced_coefficients fd.original_coefficient_positions
      idata.enabled_coefficients.enum dl hdl
    simpa using hcoef _ _ _ _ (w_name_ne_facet i)
  refine ⟨?_, ?_, ?_, ?_⟩
  · rw [hka]
    by_cases ho : k.oriented
    · rw [if_pos ho]
      rw [show ([(ext.prepare_arguments idata.integral_type).1,
          (ext.prepare_coefficient idata.integral_type
            (ext.coordinate_coefficient idata.domain) "coords"
            (coords_mode idata.domain)).1]
          ++ (coefficient_loop ext idata.integral_type fd.reduced_coefficients
              fd.original_coefficient_positions idata.enabled_coefficients.enum).2.1
          ++ facet_decls idata.integral_type).insertIdx 2 cell_orientations_decl
        = (ext.prepare_arguments idata.integral_type).1
          :: (ext.prepare_coefficient idata.integral_type
              (ext.coordinate_coefficient idata.domain) "coords"
              (coords_mode idata.domain)).1
          :: cell_orientations_decl
          :: ((coefficient_loop ext idata.integral_type fd.reduced_coefficients
              fd.original_coefficient_positions idata.enabled_coefficients.enum).2.1
            ++ facet_decls idata.integral_type) from by
          simp [List.insertIdx_succ_cons]]
      rw [List.filter_cons, List.filter_cons, List.filter_cons, List.filter_append,
        fA, fC, fO, fW, filter_facet_decls]
      simp
    · rw [if_neg ho]
      rw [List.append_assoc, show ([(ext.prepare_arguments idata.integral_type).1,
          (ext.prepare_coefficient idata.integral_type
            (ext.coordinate_coefficient idata.domain) "coords"
            (coords_mode idata.domain)).1]
          ++ ((coefficient_loop ext idata.integral_type fd.reduced_coefficients
              fd.original_coefficient_positions idata.enabled_coefficients.enum).2.1
            ++ facet_decls idata.integral_type))
        = (ext.prepare_arguments idata.integral_type).1
          :: (ext.prepare_coefficient idata.integral_type
              (ext.coordinate_coefficient idata.domain) "coords"
              (coords_mode idata.domain)).1
          :: ((coefficient_loop ext idata.integral_type fd.reduced_coefficients
              fd.original_coefficient_positions idata.enabled_coefficients.enum).2.1
            ++ facet_decls idata.integral_type) from rfl]
      rw [List.filter_cons, List.filter_cons, List.filter_append,
        fA, fC, fW, filter_facet_decls]
      simp
  · rintro (hit | hit) <;> rw [hit] <;> rfl
  · rintro (hit | hit) <;> rw [hit] <;> rfl
  · intro hit
    rw [hit]
    rfl

/-- C8: in every kernel produced by `compile_integral`, the
`coefficient_numbers` tuple lists, in mask order, the original-form
positions of exactly the coefficients whose `enabled_coefficients`
entry is true, and the kernel parameter list contains exactly one
buffer per enabled coefficient (its length is the two fixed buffers,
plus one per enabled coefficient, plus the facet declarations, plus the
optional orientations parameter). -/
theorem kernel_coefficient_buffers (ext : Collab) (idata : IntegralData)
    (fd : FormData) (pre : String) (parameters : Dict) (k : Kernel) (d : Dict)
    (h : compile_integral ext idata fd pre parameters = .ok (some k, d)) :
    k.coefficient_numbers
      = idata.enabled_coefficients.enum.filterMap
          (fun p => if p.2 then
            some (fd.original_coefficient_positions.getD p.1 0) else none)
    ∧ k.ast.args.length
        = 2 + idata.enabled_coefficients.count true
          + (facet_decls idata.integral_type).length
          + (if k.oriented then 1 else 0) := by
  obtain ⟨-, hkn, hka⟩ := compile_integral_ok_some ext idata fd pre parameters k d h
  constructor
  · rw [hkn, coefficient_loop_numbers]
  · have hcl : (coefficient_loop ext idata.integral_type fd.reduced_coefficients
        fd.original_coefficient_positions idata.enabled_coefficients.enum).2.1.length
        = idata.enabled_coefficients.count true := by
      rw [coefficient_loop_decls_length]
      have := enumFrom_filter_snd_length 0 idata.enabled_coefficients
      simpa [List.enum] using this
    rw [hka]
    by_cases ho : k.oriented
    · rw [if_pos ho, if_pos ho]
      rw [List.length_insertIdx 2 _ (by simp)]
      simp [hcl]
      omega
    · rw [if_neg ho, if_neg ho]
      simp [hcl]
      omega

/-- C10 (amended): `compile_integral` leaves the caller-supplied
parameters dictionary unchanged except for removing the entries whose
value is the literal `"auto"` under `quadrature_degree` and
`quadrature_rule` (driver lines 72-75); in particular, when neither
entry holds `"auto"` the dictionary is returned to the caller exactly
as supplied.  The symbolic form and integral data are immutable inputs
of the embedded pipeline. -/
theorem compile_integral_parameter_effect (ext : Collab) (idata : IntegralData)
    (fd : FormData) (pre : String) (parameters : Dict) (k? : Option Kernel) (d : Dict)
    (h : compile_integral ext idata fd pre parameters = .ok (k?, d)) :
    d = preprocess_parameters parameters
    ∧ (dict_get parameters "quadrature_degree" ≠ some (.vstr "auto") →
        dict_get parameters "quadrature_rule" ≠ some (.vstr "auto") →
        d = parameters) := by
  have hp := compile_integral_ok_params ext idata fd pre parameters k? d h
  exact ⟨hp, fun h1 h2 => hp.trans (preprocess_parameters_of_no_auto parameters h1 h2)⟩

/-- C10 (witness for the amended theorem): a concrete run with no
`"auto"` entries returns the parameters dictionary untouched. -/
theorem compile_integral_parameter_effect_witness :
    compile_integral collab_zero idata_cell fd0 "form" params0 = .ok (none, params0)
    ∧ (params0 = preprocess_parameters params0
       ∧ (dict_get params0 "quadrature_degree" ≠ some (.vstr "auto") →
           dict_get params0 "quadrature_rule" ≠ some (.vstr "auto") →
           params0 = params0)) :=
  ⟨rfl, compile_integral_parameter_effect collab_zero idata_cell fd0 "form"
    params0 none params0 rfl⟩

/-- The kernel `compile_integral` produces for `idata_interior` under
`collab0` (checked by the witness below). -/
def kernel_interior : Kernel where
  integral_type := "interior_facet"
  subdomain_id := "otherwise"
  coefficient_numbers := [0, 5]
  oriented := false
  ast := {
    ret := "void"
    name := "form_interior_facet_integral_otherwise"
    args := [⟨"double", "A", [3, 3], []⟩, ⟨"double", "coords", [3], ["const"]⟩,
             ⟨"double", "w_0", [3], ["const"]⟩, ⟨"double", "w_2", [3], ["const"]⟩,
             ⟨"unsigned int", "facet", [2], ["const"]⟩]
    body := ["prepare_A", "prepare_coords", "prepare_w_0", "prepare_w_2",
             "body", "finalise_A"]
    pred := ["static", "inline"] }

/-- C7 (witness): instantiated at a concrete interior-facet compile. -/
theorem facet_parameter_shape_witness :
    compile_integral collab0 idata_interior fd0 "form" params0
        = .ok (some kernel_interior, params0)
    ∧ (kernel_interior.ast.args.filter (fun dl => dl.sym == "facet")
          = facet_decls idata_interior.integral_type
      ∧ ((idata_interior.integral_type = "exterior_facet"
            ∨ idata_interior.integral_type = "exterior_facet_vert") →
          facet_decls idata_interior.integral_type
            = [⟨"unsigned int", "facet", [1], ["const"]⟩])
      ∧ ((idata_interior.integral_type = "interior_facet"
            ∨ idata_interior.integral_type = "interior_facet_vert") →
          facet_decls idata_interior.integral_type
            = [⟨"unsigned int", "facet", [2], ["const"]⟩])
      ∧ (idata_interior.integral_type = "cell"
          → facet_decls idata_interior.integral_type = [])) :=
  ⟨rfl, facet_parameter_shape collab0 idata_interior fd0 "form" params0
    kernel_interior params0 rfl
    (fun it => by simp [collab0])
    (fun it c n m hn => by simpa [collab0] using hn)⟩

/-- The kernel `compile_integral` produces for `idata_cell` under
`collab0` (checked by the witness below). -/
def kernel_cell : Kernel where
  integral_type := "cell"
  subdomain_id := "otherwise"
  coefficient_numbers := [0, 5]
  oriented := false
  ast := {
    ret := "void"
    name := "form_cell_integral_otherwise"
    args := [⟨"double", "A", [3, 3], []⟩, ⟨"double", "coords", [3], ["const"]⟩,
             ⟨"double", "w_0", [3], ["const"]⟩, ⟨"double", "w_2", [3], ["const"]⟩]
    body := ["prepare_A", "prepare_coords", "prepare_w_0", "prepare_w_2",
             "body", "finalise_A"]
    pred := ["static", "inline"] }

/-- C8 (witness): instantiated at a concrete cell compile with mask
`[true, false, true]` and original positions `[0, 2, 5]`. -/
theorem kernel_coefficient_buffers_witness :
    compile_integral collab0 idata_cell fd0 "form" params0
        = .ok (some kernel_cell, params0)
    ∧ (kernel_cell.coefficient_numbers
          = idata_cell.enabled_coefficients.enum.filterMap
              (fun p => if p.2 then
                some (fd0.original_coefficient_positions.getD p.1 0) else none)
      ∧ kernel_cell.ast.args.length
          = 2 + idata_cell.enabled_coefficients.count true
            + (facet_decls idata_cell.integral_type).length
            + (if kernel_cell.oriented then 1 else 0)) :=
  ⟨rfl, kernel_coefficient_buffers collab0 idata_cell fd0 "form" params0
    kernel_cell params0 rfl⟩

theorem build_kernel_body_empty (ext : Collab) (rv ir : List GEM)
    (po : List Nat) (licm : Bool) (names : List (Nat × String))
    (hemit : ∀ pairs gi, ext.emit_operations pairs gi = []) :
    build_kernel_body ext rv ir po licm names = (none, false) := by
  simp only [build_kernel_body]
  rw [hemit]
  simp

/-- C3: when the scheduled operation list is empty (the integral was
simplified to the identically-zero expression), `compile_integral`
returns no kernel instead of an empty one (driver lines 238-239 and
191-192), and `compile_form` drops that integral from the returned
kernel list without reporting an error (driver lines 53-55). -/
theorem zero_integral_dropped (ext : Collab) (idata : IntegralData)
    (fd : FormData) (pre : String) (parameters : Dict)
    (hemit : ∀ pairs gi, ext.emit_operations pairs gi = [])
    (hok : ∃ r, compile_integral ext idata fd pre parameters = .ok r) :
    compile_integral ext idata fd pre parameters
        = .ok (none, preprocess_parameters parameters)
    ∧ compile_form_loop ext fd pre parameters [idata] = .ok [] := by
  obtain ⟨r, hr⟩ := hok
  have hmain : compile_integral ext idata fd pre parameters
      = .ok (none, preprocess_parameters parameters) := by
    simp only [compile_integral] at hr ⊢
    split at hr
    · exact absurd hr (by simp)
    · split at hr
      · exact absurd hr (by simp)
      · rw [build_kernel_body_empty ext _ _ _ _ _ hemit]
  refine ⟨hmain, ?_⟩
  simp only [compile_form_loop, hmain]

/-- C3 (witness): a concrete compile under a scheduler that emits no
operations yields no kernel, and the form loop returns the empty kernel
list. -/
theorem zero_integral_dropped_witness :
    compile_integral collab_zero idata_cell fd0 "form" params0
        = .ok (none, preprocess_parameters params0)
    ∧ compile_form_loop collab_zero fd0 "form" params0 [idata_cell] = .ok [] :=
  zero_integral_dropped collab_zero idata_cell fd0 "form" params0
    (fun _ _ => rfl) ⟨(none, params0), rfl⟩

theorem integrals_loop_bad_rule (ext : Collab) (cell it coords : String)
    (argidx : List Nat) (cmap : List (String × GEM)) (pp : Dict)
    (i : Nat) (t : IntegralTerm) (rest : List (Nat × IntegralTerm))
    (v est : PyVal)
    (hest : dict_get (merge_params t.metadata pp) "estimated_polynomial_degree"
        = some est)
    (hqr : dict_get (merge_params t.metadata pp) "quadrature_rule" = some v)
    (hnr : is_quadrature_rule v = false) :
    integrals_loop ext cell it coords argidx cmap pp ((i, t) :: rest) ([], [], [])
      = .error (quad_rule_error, []) := by
  simp only [integrals_loop]
  rw [show resolve_quadrature_degree (merge_params t.metadata pp)
      = .ok ((dict_get (merge_params t.metadata pp) "quadrature_degree").getD est) from by
    unfold resolve_quadrature_degree
    rw [hest]]
  rw [hqr]
  cases v with
  | vrule r => simp [is_quadrature_rule] at hnr
  | vint n => rfl
  | vstr s => rfl
  | vother o => rfl

/-- C5: when the resolved `quadrature_rule` parameter is supplied
explicitly but is not a `QuadratureRule` value, `compile_integral`
raises the `ValueError` of driver lines 158-160 at the point of use and
no integrand of that integral is handed to the lowering engine (the
error's lowering log is empty — the check precedes coordinate
replacement and `fem.process` for the first term). -/
theorem bad_quadrature_rule_rejected (ext : Collab) (idata : IntegralData)
    (fd : FormData) (pre : String) (parameters : Dict)
    (v : PyVal) (t : IntegralTerm) (rest : List IntegralTerm) (est : PyVal)
    (hterms : idata.integrals = t :: rest)
    (hsup : dict_get parameters "quadrature_rule" = some v)
    (hnr : is_quadrature_rule v = false)
    (hna : v ≠ .vstr "auto")
    (hest : dict_get (merge_params t.metadata (preprocess_parameters parameters))
        "estimated_polynomial_degree" = some est) :
    compile_integral ext idata fd pre parameters
      = .error (quad_rule_error, []) := by
  have hppq : dict_get (preprocess_parameters parameters) "quadrature_rule"
      = some v := by
    rw [dict_get_preprocess_rule, hsup, if_neg]
    exact fun hcontra => hna (Option.some.inj hcontra)
  have hqrm : dict_get (merge_params t.metadata (preprocess_parameters parameters))
      "quadrature_rule" = some v := by
    unfold merge_params
    rw [dict_get_update, hppq]
    rfl
  simp only [compile_integral]
  rw [hterms, List.enum_cons,
    integrals_loop_bad_rule ext _ _ _ _ _ _ 0 t (List.enumFrom 1 rest) v est hest hqrm hnr]

/-- The parameters dictionary of the C5 witness: its `quadrature_rule`
entry is an explicit non-quadrature-rule object. -/
def params_bad_rule : Dict :=
  [("quadrature_rule", .vother "dict"), ("unroll_indexsum", .vint 0),
   ("coffee_licm", .vint 0)]

/-- C5 (witness): a concrete compile with a non-rule `quadrature_rule`
fails with the `ValueError` and an empty lowering log. -/
theorem bad_quadrature_rule_rejected_witness :
    compile_integral collab0 idata_cell fd0 "form" params_bad_rule
      = .error (quad_rule_error, []) :=
  bad_quadrature_rule_rejected collab0 idata_cell fd0 "form" params_bad_rule
    (.vother "dict") term0 [] (.vint 2) rfl rfl rfl (by decide) rfl

/-- C6: the quadrature degree is resolved with explicit-wins precedence
(driver lines 143-156): a non-`"auto"` `quadrature_degree` in the
configuration parameters overrides per-integral metadata; with none in
the configuration (absent or the removed `"auto"`), the metadata entry
wins; with neither, the estimated polynomial degree is used; and an
`"auto"` value for `quadrature_degree` or `quadrature_rule` in the
configuration parameters is removed up front, i.e. treated as if the
parameter were absent. -/
theorem quadrature_degree_precedence (metadata parameters : Dict) (d est : PyVal)
    (hest : dict_get metadata "estimated_polynomial_degree" = some est)
    (hestp : dict_get parameters "estimated_polynomial_degree" = none) :
    ((dict_get parameters "quadrature_degree" = some d → d ≠ .vstr "auto" →
        resolve_quadrature_degree
          (merge_params metadata (preprocess_parameters parameters)) = .ok d)
    ∧ ((dict_get parameters "quadrature_degree" = none
          ∨ dict_get parameters "quadrature_degree" = some (.vstr "auto")) →
        dict_get metadata "quadrature_degree" = some d →
        resolve_quadrature_degree
          (merge_params metadata (preprocess_parameters parameters)) = .ok d)
    ∧ ((dict_get parameters "quadrature_degree" = none
          ∨ dict_get parameters "quadrature_degree" = some (.vstr "auto")) →
        dict_get metadata "quadrature_degree" = none →
        resolve_quadrature_degree
          (merge_params metadata (preprocess_parameters parameters)) = .ok est)
    ∧ (dict_get parameters "quadrature_rule" = some (.vstr "auto") →
        dict_get (preprocess_parameters parameters) "quadrature_rule" = none)) := by
  have hestpp : dict_get (preprocess_parameters parameters)
      "estimated_polynomial_degree" = none := by
    rw [dict_get_preprocess_other parameters _ (by decide) (by decide)]
    exact hestp
  have hmest : dict_get (merge_params metadata (preprocess_parameters parameters))
      "estimated_polynomial_degree" = some est := by
    unfold merge_params
    rw [dict_get_update, hestpp, hest]
    rfl
  have hres : resolve_quadrature_degree
      (merge_params metadata (preprocess_parameters parameters))
      = .ok ((dict_get (merge_params metadata (preprocess_parameters parameters))
          "quadrature_degree").getD est) := by
    unfold resolve_quadrature_degree
    rw [hmest]
  refine ⟨?_, ?_, ?_, ?_⟩
  · intro hd hna
    have hqd : dict_get (preprocess_parameters parameters) "quadrature_degree"
        = some d := by
      rw [dict_get_preprocess_degree, hd, if_neg]
      exact fun hcontra => hna (Option.some.inj hcontra)
    rw [hres]
    unfold merge_params
    rw [dict_get_update, hqd]
    rfl
  · intro habsent hmeta
    have hqd : dict_get (preprocess_parameters parameters) "quadrature_degree"
        = none := by
      rw [dict_get_preprocess_degree]
      rcases habsent with habs | habs <;> rw [habs] <;> simp
    rw [hres]
    unfold merge_params
    rw [dict_get_update, hqd, hmeta]
    rfl
  · intro habsent hmeta
    have hqd : dict_get (preprocess_parameters parameters) "quadrature_degree"
        = none := by
      rw [dict_get_preprocess_degree]
      rcases habsent with habs | habs <;> rw [habs] <;> simp
    rw [hres]
    unfold merge_params
    rw [dict_get_update, hqd, hmeta]
    rfl
  · intro hauto
    rw [dict_get_preprocess_rule, if_pos hauto]

/-- Metadata of the C6 witness: estimated degree 4 and a metadata
quadrature degree 2. -/
def metadata1 : Dict :=
  [("estimated_polynomial_degree", .vint 4), ("quadrature_degree", .vint 2)]

/-- Configuration parameters of the C6 witness: an explicit quadrature
degree 7. -/
def params1 : Dict := [("quadrature_degree", .vint 7)]

/-- C6 (witness): instantiated at concrete dictionaries where the
explicit configuration degree 7 wins over metadata degree 2 and
estimate 4. -/
theorem quadrature_degree_precedence_witness :
    (dict_get params1 "quadrature_degree" = some (.vint 7) → (.vint 7 : PyVal) ≠ .vstr "auto" →
        resolve_quadrature_degree
          (merge_params metadata1 (preprocess_parameters params1)) = .ok (.vint 7))
    ∧ ((dict_get params1 "quadrature_degree" = none
          ∨ dict_get params1 "quadrature_degree" = some (.vstr "auto")) →
        dict_get metadata1 "quadrature_degree" = some (.vint 7) →
        resolve_quadrature_degree
          (merge_params metadata1 (preprocess_parameters params1)) = .ok (.vint 7))
    ∧ ((dict_get params1 "quadrature_degree" = none
          ∨ dict_get params1 "quadrature_degree" = some (.vstr "auto")) →
        dict_get metadata1 "quadrature_degree" = none →
        resolve_quadrature_degree
          (merge_params metadata1 (preprocess_parameters params1)) = .ok (.vint 4))
    ∧ (dict_get params1 "quadrature_rule" = some (.vstr "auto") →
        dict_get (preprocess_parameters params1) "quadrature_rule" = none) :=
  quadrature_degree_precedence metadata1 params1 (.vint 7) (.vint 4) rfl rfl
